import Mathlib

/-!
Verification of the DART dropout controller (`src/boosting/dart.hpp`).

The controller's collaborators (`Tree::Shrinkage`, `ScoreUpdater::AddScore`,
`Random`, the base `GBDT` boosting step) live outside the provided source
tree; they are modelled from the specification, as noted on each definition.
All arithmetic is over `ℚ` (the spec's properties are stated exactly,
modulo floating-point rounding).
-/

namespace LightGBM

/-- Modelled from the spec: a WeakLearner is opaque except for `rescale`
(cumulative in-place multiplication of its leaf outputs) and accumulation
of its per-row prediction into a score buffer.  We keep the immutable
per-row base prediction `base` and a cumulative multiplier `weight`; the
tree's current prediction at row `r` is `weight * base r`. -/
structure Tree where
  weight : ℚ
  base : ℕ → ℚ

/-- Modelled from the spec: `Tree::Shrinkage(rate)` multiplies every leaf
output by `rate`, in place, cumulative across calls. -/
def Tree.Shrinkage (t : Tree) (rate : ℚ) : Tree :=
  { t with weight := t.weight * rate }

/-- Placeholder tree used as the `getD` default; never read in-range. -/
def defTree : Tree := { weight := 0, base := fun _ => 0 }

/-- A score buffer: per-row, per-class running prediction total. -/
abbrev Buf := ℕ → ℕ → ℚ

/-- Default buffer for out-of-range list reads. -/
def defBuf : Buf := fun _ _ => 0

/-- Modelled from the spec: `ScoreUpdater::AddScore(tree, class)` adds the
tree's current (post-rescale) per-row value to column `class` of the
buffer. -/
def AddScore (buf : Buf) (t : Tree) (c : ℕ) : Buf :=
  fun r c2 => if c2 = c then buf r c2 + t.weight * t.base r else buf r c2

/-- Modelled from the spec: deterministic seeded uniform-deviate source in
`[0,1)`.  A linear-congruential state over 31 bits. -/
structure Random where
  s : ℕ

/-- Modelled from the spec: construct the stream from a seed. -/
def Random.ofSeed (seed : ℕ) : Random := { s := seed }

/-- Advance the stream state. -/
def Random.next (r : Random) : Random :=
  { s := (r.s * 1103515245 + 12345) % 2147483648 }

/-- The deviate produced by the current state, in `[0,1)`. -/
def Random.val (r : Random) : ℚ :=
  ((r.s % 2147483648 : ℕ) : ℚ) / 2147483648

/-- Modelled from the spec: `Random::NextDouble()` yields one uniform
deviate and advances the state. -/
def Random.NextDouble (r : Random) : ℚ × Random := (r.val, r.next)

/-- The configuration options the DART controller reads
(`gbdt_config_`). -/
structure BoostingConfig where
  drop_rate : ℚ
  skip_drop : ℚ
  learning_rate : ℚ
  xgboost_dart_mode : Bool
  drop_seed : ℕ
  num_class : ℕ

/-- The controller state: the flat ensemble `models_` (index
`i * num_class + c`), the completed iteration count `iter_`, the training
and validation score updaters, `drop_index_`, `random_for_drop_`,
`shrinkage_rate_`, and the lazy gate `is_update_score_cur_iter_`. -/
structure DartState where
  models : List Tree
  iter : ℕ
  num_data : ℕ
  train_score : Buf
  valid_scores : List Buf
  drop_index : List ℕ
  random_for_drop : Random
  shrinkage_rate : ℚ
  is_update_score_cur_iter : Bool

/-- Flat index of tree `(i, c)` in `models_`. -/
def slot (C i c : ℕ) : ℕ := i * C + c

/-- The selection loop of `DART::DroppingTrees`: for each completed
iteration `i < n`, draw one deviate and keep `i` iff it is below
`drop_rate`. -/
def selectIndices (cfg : BoostingConfig) (n : ℕ) (r : Random) :
    List ℕ × Random :=
  (List.range n).foldl
    (fun acc i =>
      let p := acc.2.NextDouble
      (if p.1 < cfg.drop_rate then acc.1 ++ [i] else acc.1, p.2))
    ([], r)

/-- The skip test plus selection loop of `DART::DroppingTrees`: one deviate
decides whether the round skips dropping entirely. -/
def selectDrop (cfg : BoostingConfig) (r : Random) (n : ℕ) :
    List ℕ × Random :=
  let p := r.NextDouble
  if p.1 < cfg.skip_drop then ([], p.2) else selectIndices cfg n p.2

/-- In-place `models_[s]->Shrinkage(f)`. -/
def shrinkAt (models : List Tree) (s : ℕ) (f : ℚ) : List Tree :=
  models.set s ((models.getD s defTree).Shrinkage f)

/-- Body of the drop loop of `DART::DroppingTrees` for one tree `(i, c)`:
`Shrinkage(-1.0)` then `AddScore` into the training buffer. -/
def dropClass (C i : ℕ) (p : List Tree × Buf) (c : ℕ) : List Tree × Buf :=
  let m := shrinkAt p.1 (slot C i c) (-1)
  (m, AddScore p.2 (m.getD (slot C i c) defTree) c)

/-- Drop all classes of iteration `i`. -/
def dropIter (C : ℕ) (p : List Tree × Buf) (i : ℕ) : List Tree × Buf :=
  (List.range C).foldl (dropClass C i) p

/-- The full drop loop of `DART::DroppingTrees` over `drop_index_`. -/
def dropTrees (C : ℕ) (p : List Tree × Buf) (idx : List ℕ) :
    List Tree × Buf :=
  idx.foldl (dropIter C) p

/-- The shrinkage-rate computation at the end of `DART::DroppingTrees`. -/
def computeShrinkage (cfg : BoostingConfig) (k : ℕ) : ℚ :=
  if cfg.xgboost_dart_mode = false then
    cfg.learning_rate / (1 + (k : ℚ))
  else if k = 0 then cfg.learning_rate
  else cfg.learning_rate / (cfg.learning_rate + (k : ℚ))

/-- `DART::DroppingTrees`: clear and rebuild `drop_index_`, drop the
selected trees from the training buffer, compute `shrinkage_rate_`. -/
def DroppingTrees (cfg : BoostingConfig) (st : DartState) : DartState :=
  let sel := selectDrop cfg st.random_for_drop st.iter
  let p := dropTrees cfg.num_class (st.models, st.train_score) sel.1
  { st with
    models := p.1
    train_score := p.2
    drop_index := sel.1
    random_for_drop := sel.2
    shrinkage_rate := computeShrinkage cfg sel.1.length }

/-- Accumulator threaded through `DART::Normalize`. -/
structure NormAcc where
  models : List Tree
  train : Buf
  valids : List Buf

/-- The first rescale factor of `DART::Normalize`: `1/(k+1)` in standard
mode, `shrinkage_rate_` in xgboost mode. -/
def normF1 (cfg : BoostingConfig) (k sr : ℚ) : ℚ :=
  if cfg.xgboost_dart_mode then sr else 1 / (k + 1)

/-- The second rescale factor of `DART::Normalize`: `-k` in standard mode,
`-k/learning_rate` in xgboost mode. -/
def normF2 (cfg : BoostingConfig) (k : ℚ) : ℚ :=
  if cfg.xgboost_dart_mode then -k / cfg.learning_rate else -k

/-- Body of `DART::Normalize` for one tree `(i, c)`: rescale by `normF1`
and add to every validation buffer, then rescale by `normF2` and add to
the training buffer. -/
def normClass (cfg : BoostingConfig) (k sr : ℚ) (i : ℕ) (acc : NormAcc)
    (c : ℕ) : NormAcc :=
  let s := slot cfg.num_class i c
  let m1 := shrinkAt acc.models s (normF1 cfg k sr)
  let valids2 := acc.valids.map (fun v => AddScore v (m1.getD s defTree) c)
  let m2 := shrinkAt m1 s (normF2 cfg k)
  let train2 := AddScore acc.train (m2.getD s defTree) c
  { models := m2, train := train2, valids := valids2 }

/-- Normalize all classes of dropped iteration `i`. -/
def normIter (cfg : BoostingConfig) (k sr : ℚ) (acc : NormAcc) (i : ℕ) :
    NormAcc :=
  (List.range cfg.num_class).foldl (normClass cfg k sr i) acc

/-- `DART::Normalize` over this round's `drop_index_`. -/
def Normalize (cfg : BoostingConfig) (st : DartState) : DartState :=
  let k : ℚ := (st.drop_index.length : ℚ)
  let acc := st.drop_index.foldl (normIter cfg k st.shrinkage_rate)
    { models := st.models, train := st.train_score,
      valids := st.valid_scores }
  { st with
    models := acc.models
    train_score := acc.train
    valid_scores := acc.valids }

/-- `DART::GetTrainingScore`: lazily trigger `DroppingTrees` at most once
per round, then return the training buffer and its length. -/
def GetTrainingScore (cfg : BoostingConfig) (st : DartState) :
    (Buf × ℕ) × DartState :=
  let st2 := if st.is_update_score_cur_iter then st
             else { DroppingTrees cfg st with is_update_score_cur_iter := true }
  ((st2.train_score, st2.num_data * cfg.num_class), st2)

/-- Modelled from the spec: the base step accumulates each newly grown
tree into the training buffer at its class. -/
def accumulateNew (C : ℕ) (sr : ℚ) (bases : List (ℕ → ℚ)) (train : Buf) :
    Buf :=
  (List.range C).foldl
    (fun b c => AddScore b { weight := sr, base := bases.getD c (fun _ => 0) } c)
    train

/-- Modelled from the spec: `GBDT::TrainOneIter` (not under `src/`)
requests the current training score — the lazy trigger for drop
selection — grows one new tree per class scaled by `shrinkage_rate_`,
appends them to the ensemble, accumulates them into the training buffer,
advances the iteration count, and, only when `is_eval` is set, runs
evaluation / early stopping. -/
def GBDTTrainOneIter (cfg : BoostingConfig) (bases : List (ℕ → ℚ))
    (evalFn : DartState → Bool) (st : DartState) (is_eval : Bool) :
    Bool × DartState :=
  let st1 := (GetTrainingScore cfg st).2
  let newTrees := (List.range cfg.num_class).map
    (fun c => { weight := st1.shrinkage_rate,
                base := bases.getD c (fun _ => 0) : Tree })
  let st2 := { st1 with
    models := st1.models ++ newTrees
    train_score := accumulateNew cfg.num_class st1.shrinkage_rate bases
      st1.train_score
    iter := st1.iter + 1 }
  if is_eval then (evalFn st2, st2) else (false, st2)

/-- `DART::TrainOneIter`: reset the lazy gate, run the base step with
evaluation suppressed, normalize, and only then evaluate (when asked). -/
def TrainOneIter (cfg : BoostingConfig) (bases : List (ℕ → ℚ))
    (evalFn : DartState → Bool) (st : DartState) (is_eval : Bool) :
    Bool × DartState :=
  let st0 := { st with is_update_score_cur_iter := false }
  let st1 := (GBDTTrainOneIter cfg bases evalFn st0 false).2
  let st2 := Normalize cfg st1
  if is_eval then (evalFn st2, st2) else (false, st2)

/-- `DART::Init`: after the (external, deterministic) base initialization,
re-seed `random_for_drop_` from the configured seed. -/
def DARTInit (cfg : BoostingConfig) (st : DartState) : DartState :=
  { st with random_for_drop := Random.ofSeed cfg.drop_seed }

/-- Run a sequence of rounds (no evaluation), threading the state. -/
def runRounds (cfg : BoostingConfig) (inputs : List (List (ℕ → ℚ)))
    (st : DartState) : DartState :=
  inputs.foldl (fun s nb => (TrainOneIter cfg nb (fun _ => false) s false).2) st

/-- The per-round observables of a state: this round's drop set, shrinkage
rate, and all persisted tree weights. -/
def roundTrace (st : DartState) : List ℕ × ℚ × List ℚ :=
  (st.drop_index, st.shrinkage_rate, st.models.map Tree.weight)

/-- Traces of every round of a run. -/
def runTraces (cfg : BoostingConfig) (inputs : List (List (ℕ → ℚ)))
    (st : DartState) : List (List ℕ × ℚ × List ℚ) :=
  (inputs.foldl
    (fun (a : DartState × List (List ℕ × ℚ × List ℚ)) nb =>
      let s2 := (TrainOneIter cfg nb (fun _ => false) a.1 false).2
      (s2, a.2 ++ [roundTrace s2]))
    (st, [])).2

/-! ### List and arithmetic helpers -/

theorem getD_set_self {α : Type} (l : List α) (i : ℕ) (a d : α)
    (h : i < l.length) : (l.set i a).getD i d = a := by
  induction l generalizing i with
  | nil => simp at h
  | cons x xs ih =>
    cases i with
    | zero => simp [List.set, List.getD]
    | succ n => simpa [List.set, List.getD] using ih n (by simpa using h)

theorem getD_set_ne {α : Type} (l : List α) (i j : ℕ) (a d : α)
    (h : i ≠ j) : (l.set i a).getD j d = l.getD j d := by
  induction l generalizing i j with
  | nil => simp [List.set]
  | cons x xs ih =>
    cases i with
    | zero =>
      cases j with
      | zero => exact absurd rfl h
      | succ m => simp [List.set, List.getD]
    | succ n =>
      cases j with
      | zero => simp [List.set, List.getD]
      | succ m => simpa [List.set, List.getD] using ih n m (by omega)

theorem getD_append_lt {α : Type} (l1 l2 : List α) (i : ℕ) (d : α)
    (h : i < l1.length) : (l1 ++ l2).getD i d = l1.getD i d := by
  simp [List.getD, List.getElem?_append_left h]

theorem getD_map_lt {α β : Type} (f : α → β) (l : List α) (j : ℕ)
    (d : β) (d2 : α) (h : j < l.length) :
    (l.map f).getD j d = f (l.getD j d2) := by
  induction l generalizing j with
  | nil => simp at h
  | cons x xs ih =>
    cases j with
    | zero => simp [List.getD]
    | succ m => simpa [List.getD] using ih m (by simpa using h)

theorem sum_map_add_eq (l : List ℕ) (f g : ℕ → ℚ) :
    (l.map (fun i => f i + g i)).sum = (l.map f).sum + (l.map g).sum := by
  induction l with
  | nil => simp
  | cons a t ih =>
    simp only [List.map_cons, List.sum_cons, ih]
    ring

/-- Distinct iterations occupy disjoint flat slots. -/
theorem slot_ne {C i c j c' : ℕ} (hc : c < C) (hc' : c' < C)
    (hij : i ≠ j) : slot C i c ≠ slot C j c' := by
  have key : ∀ a b c1 c2 : ℕ, c1 < C → a < b → a * C + c1 ≠ b * C + c2 := by
    intro a b c1 c2 hc1 hab heq
    have h1 : a * C + c1 < a * C + C := Nat.add_lt_add_left hc1 _
    have h2 : a * C + C = (a + 1) * C := by ring
    have h3 : (a + 1) * C ≤ b * C := Nat.mul_le_mul_right C (Nat.succ_le_of_lt hab)
    have h4 : b * C ≤ b * C + c2 := Nat.le_add_right _ _
    omega
  unfold slot
  rcases Nat.lt_or_ge i j with h | h
  · exact key i j c c' hc h
  · rcases Nat.lt_or_ge j i with h2 | h2
    · exact (key j i c' c hc' h2).symm
    · exact absurd (Nat.le_antisymm h h2).symm hij

/-- Same iteration, distinct classes: distinct flat slots. -/
theorem slot_ne_class {C i c c' : ℕ} (h : c ≠ c') :
    slot C i c ≠ slot C i c' := by
  unfold slot
  omega

/-! ### Random-stream bounds -/

theorem Random.val_nonneg (r : Random) : 0 ≤ r.val :=
  div_nonneg (Nat.cast_nonneg _) (by norm_num)

theorem Random.val_lt_one (r : Random) : r.val < 1 := by
  unfold Random.val
  rw [div_lt_one (by norm_num)]
  exact_mod_cast Nat.mod_lt _ (by norm_num)

/-! ### Drop-selection characterization -/

theorem selectIndices_spec (cfg : BoostingConfig) (n : ℕ) (r : Random) :
    selectIndices cfg n r =
      ((List.range n).filter
        (fun i => decide ((Random.next^[i] r).val < cfg.drop_rate)),
       Random.next^[n] r) := by
  induction n with
  | zero => simp [selectIndices]
  | succ m ih =>
    have h1 : List.range (m + 1) = List.range m ++ [m] := List.range_succ m
    simp only [selectIndices] at ih ⊢
    rw [h1, List.foldl_append, ih]
    simp only [List.foldl_cons, List.foldl_nil, List.filter_append]
    rw [Function.iterate_succ_apply']
    by_cases h : (Random.next^[m] r).val < cfg.drop_rate
    · simp [Random.NextDouble, h, List.filter]
    · simp [Random.NextDouble, h, List.filter]

theorem selectDrop_spec (cfg : BoostingConfig) (r : Random) (n : ℕ) :
    selectDrop cfg r n =
      if r.val < cfg.skip_drop then ([], r.next)
      else
        ((List.range n).filter
          (fun i => decide ((Random.next^[i + 1] r).val < cfg.drop_rate)),
         Random.next^[n + 1] r) := by
  unfold selectDrop Random.NextDouble
  by_cases h : r.val < cfg.skip_drop
  · simp [h]
  · simp only [h, if_false]
    rw [selectIndices_spec]
    simp only [← Function.iterate_succ_apply]

theorem selectDrop_nodup (cfg : BoostingConfig) (r : Random) (n : ℕ) :
    (selectDrop cfg r n).1.Nodup := by
  rw [selectDrop_spec]
  by_cases h : r.val < cfg.skip_drop
  · simp [h]
  · simp only [h, if_false]
    exact (List.nodup_range n).filter _

theorem selectDrop_mem_lt (cfg : BoostingConfig) (r : Random) (n : ℕ) :
    ∀ i ∈ (selectDrop cfg r n).1, i < n := by
  rw [selectDrop_spec]
  by_cases h : r.val < cfg.skip_drop
  · simp [h]
  · simp only [h, if_false]
    intro i hi
    exact List.mem_range.mp (List.mem_filter.mp hi).1

/-! ### Drop-phase characterization -/

/-- Effect of the per-class drop loop for a fixed iteration `i` over an
arbitrary duplicate-free class list `cs`: each tree `(i, c)` with `c ∈ cs`
is rescaled by `-1`, every other slot is untouched, and the training
buffer gains exactly minus that tree's previous contribution in each
column of `cs`. -/
theorem dropClasses_spec (C i : ℕ) (cs : List ℕ) (hnd : cs.Nodup)
    (p : List Tree × Buf)
    (hrange : ∀ c ∈ cs, slot C i c < p.1.length) :
    ((cs.foldl (dropClass C i) p).1.length = p.1.length)
    ∧ (∀ c ∈ cs, (cs.foldl (dropClass C i) p).1.getD (slot C i c) defTree
          = (p.1.getD (slot C i c) defTree).Shrinkage (-1))
    ∧ (∀ s, (∀ c ∈ cs, s ≠ slot C i c) →
          (cs.foldl (dropClass C i) p).1.getD s defTree
            = p.1.getD s defTree)
    ∧ (∀ r c2, (cs.foldl (dropClass C i) p).2 r c2 = p.2 r c2 +
          (if c2 ∈ cs then
             -((p.1.getD (slot C i c2) defTree).weight
                * (p.1.getD (slot C i c2) defTree).base r)
           else 0)) := by
  induction cs generalizing p with
  | nil => simp
  | cons c cs ih =>
    rw [List.nodup_cons] at hnd
    obtain ⟨hc_not, hnd'⟩ := hnd
    have hcr : slot C i c < p.1.length := hrange c (List.mem_cons_self c cs)
    have hlen1 : (dropClass C i p c).1.length = p.1.length := by
      simp [dropClass, shrinkAt]
    have hset : (dropClass C i p c).1.getD (slot C i c) defTree
        = (p.1.getD (slot C i c) defTree).Shrinkage (-1) := by
      simp only [dropClass, shrinkAt]
      exact getD_set_self _ _ _ _ hcr
    have hother : ∀ s, s ≠ slot C i c →
        (dropClass C i p c).1.getD s defTree = p.1.getD s defTree := by
      intro s hs
      simp only [dropClass, shrinkAt]
      exact getD_set_ne _ _ _ _ _ (Ne.symm hs)
    have htrain : ∀ r c2, (dropClass C i p c).2 r c2 = p.2 r c2 +
        (if c2 = c then
           -((p.1.getD (slot C i c) defTree).weight
              * (p.1.getD (slot C i c) defTree).base r)
         else 0) := by
      intro r c2
      have hm : (shrinkAt p.1 (slot C i c) (-1)).getD (slot C i c) defTree
          = (p.1.getD (slot C i c) defTree).Shrinkage (-1) := by
        simp only [shrinkAt]
        exact getD_set_self _ _ _ _ hcr
      simp only [dropClass, AddScore, hm, Tree.Shrinkage]
      by_cases h : c2 = c
      · simp [h]
      · simp [h]
    have hrange1 : ∀ c' ∈ cs, slot C i c' < (dropClass C i p c).1.length := by
      intro c' hc'
      rw [hlen1]
      exact hrange c' (List.mem_cons_of_mem c hc')
    obtain ⟨ihlen, ihset, ihother, ihtrain⟩ := ih hnd' (dropClass C i p c) hrange1
    refine ⟨?_, ?_, ?_, ?_⟩
    · rw [List.foldl_cons, ihlen, hlen1]
    · intro c' hc'
      rw [List.foldl_cons]
      rcases List.mem_cons.mp hc' with h | h
      · subst h
        rw [ihother (slot C i c') ?_, hset]
        intro c'' hc''
        exact Ne.symm (slot_ne_class (fun he => hc_not (he ▸ hc'')))
      · rw [ihset c' h, hother (slot C i c')
          (Ne.symm (slot_ne_class (fun he => hc_not (he ▸ h))))]
    · intro s hs
      rw [List.foldl_cons,
        ihother s (fun c'' hc'' => hs c'' (List.mem_cons_of_mem c hc'')),
        hother s (hs c (List.mem_cons_self c cs))]
    · intro r c2
      rw [List.foldl_cons, ihtrain r c2, htrain r c2]
      by_cases h1 : c2 = c
      · subst h1
        rw [if_pos rfl, if_neg hc_not, if_pos (List.mem_cons_self c2 cs)]
        ring
      · by_cases h2 : c2 ∈ cs
        · have h3 : (dropClass C i p c).1.getD (slot C i c2) defTree
              = p.1.getD (slot C i c2) defTree :=
            hother _ (Ne.symm (slot_ne_class (fun he => h1 he.symm)))
          rw [if_neg h1, if_pos h2, if_pos (List.mem_cons_of_mem c h2), h3]
          ring
        · have h4 : c2 ∉ c :: cs := by
            rw [List.mem_cons]
            push_neg
            exact ⟨h1, h2⟩
          rw [if_neg h1, if_neg h2, if_neg h4]
          ring

/-- The slot of class `c < C` for iteration `i` is in range whenever the
ensemble holds all trees of iterations `0..i`. -/
theorem slot_lt {C i c len : ℕ} (hc : c < C) (h : (i + 1) * C ≤ len) :
    slot C i c < len := by
  have : i * C + c < i * C + C := Nat.add_lt_add_left hc _
  have h2 : i * C + C = (i + 1) * C := by ring
  unfold slot
  omega

/-- `dropIter` (all classes of one dropped iteration). -/
theorem dropIter_spec (C i : ℕ) (p : List Tree × Buf)
    (hrange : (i + 1) * C ≤ p.1.length) :
    ((dropIter C p i).1.length = p.1.length)
    ∧ (∀ c, c < C → (dropIter C p i).1.getD (slot C i c) defTree
          = (p.1.getD (slot C i c) defTree).Shrinkage (-1))
    ∧ (∀ s, (∀ c, c < C → s ≠ slot C i c) →
          (dropIter C p i).1.getD s defTree = p.1.getD s defTree)
    ∧ (∀ r c2, (dropIter C p i).2 r c2 = p.2 r c2 +
          (if c2 < C then
             -((p.1.getD (slot C i c2) defTree).weight
                * (p.1.getD (slot C i c2) defTree).base r)
           else 0)) := by
  have h := dropClasses_spec C i (List.range C) (List.nodup_range C) p
    (fun c hc => slot_lt (List.mem_range.mp hc) hrange)
  obtain ⟨h1, h2, h3, h4⟩ := h
  refine ⟨h1, ?_, ?_, ?_⟩
  · intro c hc
    exact h2 c (List.mem_range.mpr hc)
  · intro s hs
    exact h3 s (fun c hc => hs c (List.mem_range.mp hc))
  · intro r c2
    unfold dropIter
    rw [h4 r c2]
    by_cases h : c2 < C
    · rw [if_pos (List.mem_range.mpr h), if_pos h]
    · rw [if_neg (fun hm => h (List.mem_range.mp hm)), if_neg h]

/-- The full drop loop over a duplicate-free `drop_index_`: dropped trees
are sign-flipped, everything else is untouched, and the training buffer
loses exactly each dropped tree's previous contribution. -/
theorem dropTrees_spec (C : ℕ) (idx : List ℕ) (hnd : idx.Nodup)
    (p : List Tree × Buf)
    (hrange : ∀ i ∈ idx, (i + 1) * C ≤ p.1.length) :
    ((dropTrees C p idx).1.length = p.1.length)
    ∧ (∀ i ∈ idx, ∀ c, c < C →
          (dropTrees C p idx).1.getD (slot C i c) defTree
            = (p.1.getD (slot C i c) defTree).Shrinkage (-1))
    ∧ (∀ s, (∀ i ∈ idx, ∀ c, c < C → s ≠ slot C i c) →
          (dropTrees C p idx).1.getD s defTree = p.1.getD s defTree)
    ∧ (∀ r c2, c2 < C → (dropTrees C p idx).2 r c2 = p.2 r c2 +
          (idx.map (fun i =>
             -((p.1.getD (slot C i c2) defTree).weight
                * (p.1.getD (slot C i c2) defTree).base r))).sum) := by
  induction idx generalizing p with
  | nil => simp [dropTrees]
  | cons a idx ih =>
    rw [List.nodup_cons] at hnd
    obtain ⟨ha_not, hnd'⟩ := hnd
    obtain ⟨alen, aset, aother, atrain⟩ :=
      dropIter_spec C a p (hrange a (List.mem_cons_self a idx))
    have hrange1 : ∀ i ∈ idx, (i + 1) * C ≤ (dropIter C p a).1.length := by
      intro i hi
      rw [alen]
      exact hrange i (List.mem_cons_of_mem a hi)
    obtain ⟨ihlen, ihset, ihother, ihtrain⟩ := ih hnd' (dropIter C p a) hrange1
    have hfold : dropTrees C p (a :: idx)
        = dropTrees C (dropIter C p a) idx := by
      simp [dropTrees]
    refine ⟨?_, ?_, ?_, ?_⟩
    · rw [hfold, ihlen, alen]
    · intro i hi c hc
      rw [hfold]
      rcases List.mem_cons.mp hi with h | h
      · subst h
        rw [ihother (slot C i c) ?_, aset c hc]
        intro i' hi' c' hc'
        exact slot_ne hc hc' (fun he => ha_not (he ▸ hi'))
      · rw [ihset i h c hc, aother (slot C i c)
          (fun c' hc' => slot_ne hc hc' (fun he => ha_not (he ▸ h)))]
    · intro s hs
      rw [hfold,
        ihother s (fun i hi c hc => hs i (List.mem_cons_of_mem a hi) c hc),
        aother s (fun c hc => hs a (List.mem_cons_self a idx) c hc)]
    · intro r c2 hc2
      rw [hfold, ihtrain r c2 hc2, atrain r c2, if_pos hc2]
      have hmap : idx.map (fun i =>
            -(((dropIter C p a).1.getD (slot C i c2) defTree).weight
               * ((dropIter C p a).1.getD (slot C i c2) defTree).base r))
          = idx.map (fun i =>
            -((p.1.getD (slot C i c2) defTree).weight
               * (p.1.getD (slot C i c2) defTree).base r)) := by
        apply List.map_congr_left
        intro i hi
        rw [aother (slot C i c2)
          (fun c' hc' => slot_ne hc2 hc' (fun he => ha_not (he ▸ hi)))]
      rw [hmap, List.map_cons, List.sum_cons]
      ring

/-! ### Normalize-phase characterization -/

/-- Effect of the per-class normalize loop for a fixed dropped iteration
`i` over a duplicate-free class list `cs`: each tree `(i, c)`, `c ∈ cs`,
is rescaled by `normF1` then `normF2`; every validation buffer gains the
tree's contribution as seen after the first rescale, and the training
buffer gains it as seen after both rescales. -/
theorem normClasses_spec (cfg : BoostingConfig) (k sr : ℚ) (i : ℕ)
    (cs : List ℕ) (hnd : cs.Nodup) (acc : NormAcc)
    (hrange : ∀ c ∈ cs, slot cfg.num_class i c < acc.models.length) :
    ((cs.foldl (normClass cfg k sr i) acc).models.length
        = acc.models.length)
    ∧ ((cs.foldl (normClass cfg k sr i) acc).valids.length
        = acc.valids.length)
    ∧ (∀ c ∈ cs, (cs.foldl (normClass cfg k sr i) acc).models.getD
          (slot cfg.num_class i c) defTree
        = ((acc.models.getD (slot cfg.num_class i c) defTree).Shrinkage
            (normF1 cfg k sr)).Shrinkage (normF2 cfg k))
    ∧ (∀ s, (∀ c ∈ cs, s ≠ slot cfg.num_class i c) →
        (cs.foldl (normClass cfg k sr i) acc).models.getD s defTree
          = acc.models.getD s defTree)
    ∧ (∀ r c2, (cs.foldl (normClass cfg k sr i) acc).train r c2
        = acc.train r c2 +
          (if c2 ∈ cs then
            ((acc.models.getD (slot cfg.num_class i c2) defTree).weight
              * normF1 cfg k sr * normF2 cfg k)
              * (acc.models.getD (slot cfg.num_class i c2) defTree).base r
           else 0))
    ∧ (∀ j, j < acc.valids.length → ∀ r c2,
        (cs.foldl (normClass cfg k sr i) acc).valids.getD j defBuf r c2
          = acc.valids.getD j defBuf r c2 +
            (if c2 ∈ cs then
              ((acc.models.getD (slot cfg.num_class i c2) defTree).weight
                * normF1 cfg k sr)
                * (acc.models.getD (slot cfg.num_class i c2) defTree).base r
             else 0)) := by
  induction cs generalizing acc with
  | nil => simp
  | cons c cs ih =>
    rw [List.nodup_cons] at hnd
    obtain ⟨hc_not, hnd'⟩ := hnd
    have hcr : slot cfg.num_class i c < acc.models.length :=
      hrange c (List.mem_cons_self c cs)
    have hm1 : (shrinkAt acc.models (slot cfg.num_class i c)
          (normF1 cfg k sr)).getD (slot cfg.num_class i c) defTree
        = (acc.models.getD (slot cfg.num_class i c) defTree).Shrinkage
            (normF1 cfg k sr) := by
      simp only [shrinkAt]
      exact getD_set_self _ _ _ _ hcr
    have hm1len : (shrinkAt acc.models (slot cfg.num_class i c)
          (normF1 cfg k sr)).length = acc.models.length := by
      simp [shrinkAt]
    have hlen1 : (normClass cfg k sr i acc c).models.length
        = acc.models.length := by
      simp [normClass, shrinkAt]
    have hvlen1 : (normClass cfg k sr i acc c).valids.length
        = acc.valids.length := by
      simp [normClass]
    have hset : (normClass cfg k sr i acc c).models.getD
          (slot cfg.num_class i c) defTree
        = ((acc.models.getD (slot cfg.num_class i c) defTree).Shrinkage
            (normF1 cfg k sr)).Shrinkage (normF2 cfg k) := by
      simp only [normClass, shrinkAt]
      rw [getD_set_self _ _ _ _ (by rw [List.length_set]; exact hcr)]
      rw [getD_set_self _ _ _ _ hcr]
    have hother : ∀ s, s ≠ slot cfg.num_class i c →
        (normClass cfg k sr i acc c).models.getD s defTree
          = acc.models.getD s defTree := by
      intro s hs
      simp only [normClass, shrinkAt]
      rw [getD_set_ne _ _ _ _ _ (Ne.symm hs), getD_set_ne _ _ _ _ _ (Ne.symm hs)]
    have htrain : ∀ r c2, (normClass cfg k sr i acc c).train r c2
        = acc.train r c2 +
          (if c2 = c then
            ((acc.models.getD (slot cfg.num_class i c) defTree).weight
              * normF1 cfg k sr * normF2 cfg k)
              * (acc.models.getD (slot cfg.num_class i c) defTree).base r
           else 0) := by
      intro r c2
      have hm2 : (shrinkAt (shrinkAt acc.models (slot cfg.num_class i c)
            (normF1 cfg k sr)) (slot cfg.num_class i c)
            (normF2 cfg k)).getD (slot cfg.num_class i c) defTree
          = ((acc.models.getD (slot cfg.num_class i c) defTree).Shrinkage
              (normF1 cfg k sr)).Shrinkage (normF2 cfg k) := by
        simp only [shrinkAt]
        rw [getD_set_self _ _ _ _ (by rw [List.length_set]; exact hcr)]
        rw [getD_set_self _ _ _ _ hcr]
      simp only [normClass, AddScore, hm2, Tree.Shrinkage]
      by_cases h : c2 = c
      · simp [h]
      · simp [h]
    have hvalid : ∀ j, j < acc.valids.length → ∀ r c2,
        (normClass cfg k sr i acc c).valids.getD j defBuf r c2
          = acc.valids.getD j defBuf r c2 +
            (if c2 = c then
              ((acc.models.getD (slot cfg.num_class i c) defTree).weight
                * normF1 cfg k sr)
                * (acc.models.getD (slot cfg.num_class i c) defTree).base r
             else 0) := by
      intro j hj r c2
      have hmap : (normClass cfg k sr i acc c).valids.getD j defBuf
          = AddScore (acc.valids.getD j defBuf)
              ((shrinkAt acc.models (slot cfg.num_class i c)
                (normF1 cfg k sr)).getD (slot cfg.num_class i c) defTree)
              c := by
        simp only [normClass]
        exact getD_map_lt _ _ _ _ _ hj
      rw [hmap, hm1]
      simp only [AddScore, Tree.Shrinkage]
      by_cases h : c2 = c
      · simp [h]
      · simp [h]
    have hrange1 : ∀ c' ∈ cs,
        slot cfg.num_class i c' < (normClass cfg k sr i acc c).models.length := by
      intro c' hc'
      rw [hlen1]
      exact hrange c' (List.mem_cons_of_mem c hc')
    obtain ⟨ihlen, ihvlen, ihset, ihother, ihtrain, ihvalid⟩ :=
      ih hnd' (normClass cfg k sr i acc c) hrange1
    refine ⟨?_, ?_, ?_, ?_, ?_, ?_⟩
    · rw [List.foldl_cons, ihlen, hlen1]
    · rw [List.foldl_cons, ihvlen, hvlen1]
    · intro c' hc'
      rw [List.foldl_cons]
      rcases List.mem_cons.mp hc' with h | h
      · subst h
        rw [ihother (slot cfg.num_class i c') ?_, hset]
        intro c'' hc''
        exact Ne.symm (slot_ne_class (fun he => hc_not (he ▸ hc'')))
      · rw [ihset c' h, hother (slot cfg.num_class i c')
          (Ne.symm (slot_ne_class (fun he => hc_not (he ▸ h))))]
    · intro s hs
      rw [List.foldl_cons,
        ihother s (fun c'' hc'' => hs c'' (List.mem_cons_of_mem c hc'')),
        hother s (hs c (List.mem_cons_self c cs))]
    · intro r c2
      rw [List.foldl_cons, ihtrain r c2, htrain r c2]
      by_cases h1 : c2 = c
      · subst h1
        rw [if_pos rfl, if_neg hc_not, if_pos (List.mem_cons_self c2 cs)]
        ring
      · by_cases h2 : c2 ∈ cs
        · have h3 : (normClass cfg k sr i acc c).models.getD
              (slot cfg.num_class i c2) defTree
              = acc.models.getD (slot cfg.num_class i c2) defTree :=
            hother _ (Ne.symm (slot_ne_class (fun he => h1 he.symm)))
          rw [if_neg h1, if_pos h2, if_pos (List.mem_cons_of_mem c h2), h3]
          ring
        · have h4 : c2 ∉ c :: cs := by
            rw [List.mem_cons]
            push_neg
            exact ⟨h1, h2⟩
          rw [if_neg h1, if_neg h2, if_neg h4]
          ring
    · intro j hj r c2
      rw [List.foldl_cons,
        ihvalid j (by rw [hvlen1]; exact hj) r c2, hvalid j hj r c2]
      by_cases h1 : c2 = c
      · subst h1
        rw [if_pos rfl, if_neg hc_not, if_pos (List.mem_cons_self c2 cs)]
        ring
      · by_cases h2 : c2 ∈ cs
        · have h3 : (normClass cfg k sr i acc c).models.getD
              (slot cfg.num_class i c2) defTree
              = acc.models.getD (slot cfg.num_class i c2) defTree :=
            hother _ (Ne.symm (slot_ne_class (fun he => h1 he.symm)))
          rw [if_neg h1, if_pos h2, if_pos (List.mem_cons_of_mem c h2), h3]
          ring
        · have h4 : c2 ∉ c :: cs := by
            rw [List.mem_cons]
            push_neg
            exact ⟨h1, h2⟩
          rw [if_neg h1, if_neg h2, if_neg h4]
          ring

/-- `normIter` (all classes of one dropped iteration). -/
theorem normIter_spec (cfg : BoostingConfig) (k sr : ℚ) (i : ℕ)
    (acc : NormAcc)
    (hrange : (i + 1) * cfg.num_class ≤ acc.models.length) :
    ((normIter cfg k sr acc i).models.length = acc.models.length)
    ∧ ((normIter cfg k sr acc i).valids.length = acc.valids.length)
    ∧ (∀ c, c < cfg.num_class →
        (normIter cfg k sr acc i).models.getD
          (slot cfg.num_class i c) defTree
        = ((acc.models.getD (slot cfg.num_class i c) defTree).Shrinkage
            (normF1 cfg k sr)).Shrinkage (normF2 cfg k))
    ∧ (∀ s, (∀ c, c < cfg.num_class → s ≠ slot cfg.num_class i c) →
        (normIter cfg k sr acc i).models.getD s defTree
          = acc.models.getD s defTree)
    ∧ (∀ r c2, (normIter cfg k sr acc i).train r c2
        = acc.train r c2 +
          (if c2 < cfg.num_class then
            ((acc.models.getD (slot cfg.num_class i c2) defTree).weight
              * normF1 cfg k sr * normF2 cfg k)
              * (acc.models.getD (slot cfg.num_class i c2) defTree).base r
           else 0))
    ∧ (∀ j, j < acc.valids.length → ∀ r c2,
        (normIter cfg k sr acc i).valids.getD j defBuf r c2
          = acc.valids.getD j defBuf r c2 +
            (if c2 < cfg.num_class then
              ((acc.models.getD (slot cfg.num_class i c2) defTree).weight
                * normF1 cfg k sr)
                * (acc.models.getD (slot cfg.num_class i c2) defTree).base r
             else 0)) := by
  obtain ⟨h1, h2, h3, h4, h5, h6⟩ := normClasses_spec cfg k sr i
    (List.range cfg.num_class) (List.nodup_range cfg.num_class) acc
    (fun c hc => slot_lt (List.mem_range.mp hc) hrange)
  refine ⟨h1, h2, ?_, ?_, ?_, ?_⟩
  · intro c hc
    exact h3 c (List.mem_range.mpr hc)
  · intro s hs
    exact h4 s (fun c hc => hs c (List.mem_range.mp hc))
  · intro r c2
    unfold normIter
    rw [h5 r c2]
    by_cases h : c2 < cfg.num_class
    · rw [if_pos (List.mem_range.mpr h), if_pos h]
    · rw [if_neg (fun hm => h (List.mem_range.mp hm)), if_neg h]
  · intro j hj r c2
    unfold normIter
    rw [h6 j hj r c2]
    by_cases h : c2 < cfg.num_class
    · rw [if_pos (List.mem_range.mpr h), if_pos h]
    · rw [if_neg (fun hm => h (List.mem_range.mp hm)), if_neg h]

/-- The full normalize loop over a duplicate-free `drop_index_`. -/
theorem normFold_spec (cfg : BoostingConfig) (k sr : ℚ) (idx : List ℕ)
    (hnd : idx.Nodup) (acc : NormAcc)
    (hrange : ∀ i ∈ idx, (i + 1) * cfg.num_class ≤ acc.models.length) :
    ((idx.foldl (normIter cfg k sr) acc).models.length
        = acc.models.length)
    ∧ ((idx.foldl (normIter cfg k sr) acc).valids.length
        = acc.valids.length)
    ∧ (∀ i ∈ idx, ∀ c, c < cfg.num_class →
        (idx.foldl (normIter cfg k sr) acc).models.getD
          (slot cfg.num_class i c) defTree
        = ((acc.models.getD (slot cfg.num_class i c) defTree).Shrinkage
            (normF1 cfg k sr)).Shrinkage (normF2 cfg k))
    ∧ (∀ s, (∀ i ∈ idx, ∀ c, c < cfg.num_class →
          s ≠ slot cfg.num_class i c) →
        (idx.foldl (normIter cfg k sr) acc).models.getD s defTree
          = acc.models.getD s defTree)
    ∧ (∀ r c2, c2 < cfg.num_class →
        (idx.foldl (normIter cfg k sr) acc).train r c2
        = acc.train r c2 +
          (idx.map (fun i =>
            ((acc.models.getD (slot cfg.num_class i c2) defTree).weight
              * normF1 cfg k sr * normF2 cfg k)
              * (acc.models.getD (slot cfg.num_class i c2) defTree).base r)).sum)
    ∧ (∀ j, j < acc.valids.length → ∀ r c2, c2 < cfg.num_class →
        (idx.foldl (normIter cfg k sr) acc).valids.getD j defBuf r c2
          = acc.valids.getD j defBuf r c2 +
            (idx.map (fun i =>
              ((acc.models.getD (slot cfg.num_class i c2) defTree).weight
                * normF1 cfg k sr)
                * (acc.models.getD (slot cfg.num_class i c2) defTree).base r)).sum) := by
  induction idx generalizing acc with
  | nil => simp
  | cons a idx ih =>
    rw [List.nodup_cons] at hnd
    obtain ⟨ha_not, hnd'⟩ := hnd
    obtain ⟨alen, avlen, aset, aother, atrain, avalid⟩ :=
      normIter_spec cfg k sr a acc (hrange a (List.mem_cons_self a idx))
    have hrange1 : ∀ i ∈ idx,
        (i + 1) * cfg.num_class ≤ (normIter cfg k sr acc a).models.length := by
      intro i hi
      rw [alen]
      exact hrange i (List.mem_cons_of_mem a hi)
    obtain ⟨ihlen, ihvlen, ihset, ihother, ihtrain, ihvalid⟩ :=
      ih hnd' (normIter cfg k sr acc a) hrange1
    refine ⟨?_, ?_, ?_, ?_, ?_, ?_⟩
    · rw [List.foldl_cons, ihlen, alen]
    · rw [List.foldl_cons, ihvlen, avlen]
    · intro i hi c hc
      rw [List.foldl_cons]
      rcases List.mem_cons.mp hi with h | h
      · subst h
        rw [ihother (slot cfg.num_class i c) ?_, aset c hc]
        intro i' hi' c' hc'
        exact slot_ne hc hc' (fun he => ha_not (he ▸ hi'))
      · rw [ihset i h c hc, aother (slot cfg.num_class i c)
          (fun c' hc' => slot_ne hc hc' (fun he => ha_not (he ▸ h)))]
    · intro s hs
      rw [List.foldl_cons,
        ihother s (fun i hi c hc => hs i (List.mem_cons_of_mem a hi) c hc),
        aother s (fun c hc => hs a (List.mem_cons_self a idx) c hc)]
    · intro r c2 hc2
      rw [List.foldl_cons, ihtrain r c2 hc2, atrain r c2, if_pos hc2]
      have hmap : idx.map (fun i =>
            (((normIter cfg k sr acc a).models.getD
                (slot cfg.num_class i c2) defTree).weight
              * normF1 cfg k sr * normF2 cfg k)
              * ((normIter cfg k sr acc a).models.getD
                (slot cfg.num_class i c2) defTree).base r)
          = idx.map (fun i =>
            ((acc.models.getD (slot cfg.num_class i c2) defTree).weight
              * normF1 cfg k sr * normF2 cfg k)
              * (acc.models.getD (slot cfg.num_class i c2) defTree).base r) := by
        apply List.map_congr_left
        intro i hi
        rw [aother (slot cfg.num_class i c2)
          (fun c' hc' => slot_ne hc2 hc' (fun he => ha_not (he ▸ hi)))]
      rw [hmap, List.map_cons, List.sum_cons]
      ring
    · intro j hj r c2 hc2
      rw [List.foldl_cons,
        ihvalid j (by rw [avlen]; exact hj) r c2 hc2, avalid j hj r c2,
        if_pos hc2]
      have hmap : idx.map (fun i =>
            (((normIter cfg k sr acc a).models.getD
                (slot cfg.num_class i c2) defTree).weight
              * normF1 cfg k sr)
              * ((normIter cfg k sr acc a).models.getD
                (slot cfg.num_class i c2) defTree).base r)
          = idx.map (fun i =>
            ((acc.models.getD (slot cfg.num_class i c2) defTree).weight
              * normF1 cfg k sr)
              * (acc.models.getD (slot cfg.num_class i c2) defTree).base r) := by
        apply List.map_congr_left
        intro i hi
        rw [aother (slot cfg.num_class i c2)
          (fun c' hc' => slot_ne hc2 hc' (fun he => ha_not (he ▸ hi)))]
      rw [hmap, List.map_cons, List.sum_cons]
      ring

/-! ### Small state-level helpers -/

theorem computeShrinkage_zero (cfg : BoostingConfig) :
    computeShrinkage cfg 0 = cfg.learning_rate := by
  unfold computeShrinkage
  cases hm : cfg.xgboost_dart_mode
  · norm_num
  · norm_num

/-! ### Claim theorems -/

/-- **C3.** For every round, the shrinkage rate computed for the new tree
equals `lr/(1+k)` in standard mode with `k = |DropSet|`; in alternate
(xgboost) mode it equals `lr` when `k = 0` and `lr/(lr+k)` when
`k > 0`. -/
theorem dart_shrinkage_formula (cfg : BoostingConfig) (st : DartState) :
    (DroppingTrees cfg st).shrinkage_rate =
      (if cfg.xgboost_dart_mode then
        (if (DroppingTrees cfg st).drop_index.length = 0 then
           cfg.learning_rate
         else cfg.learning_rate /
           (cfg.learning_rate
             + ((DroppingTrees cfg st).drop_index.length : ℚ)))
       else cfg.learning_rate
         / (1 + ((DroppingTrees cfg st).drop_index.length : ℚ))) := by
  have h1 : (DroppingTrees cfg st).shrinkage_rate
      = computeShrinkage cfg (DroppingTrees cfg st).drop_index.length := rfl
  rw [h1]
  unfold computeShrinkage
  cases hm : cfg.xgboost_dart_mode
  · simp
  · simp

/-- **C4.** Within a round, the first call to the training-score accessor
(starting from a fresh gate) triggers drop selection exactly once; the
second and third call return the identical buffer and length and leave the
state — in particular the random stream — untouched. -/
theorem dart_lazy_at_most_once (cfg : BoostingConfig) (st : DartState)
    (h : st.is_update_score_cur_iter = false) :
    ((GetTrainingScore cfg st).2
      = { DroppingTrees cfg st with is_update_score_cur_iter := true })
    ∧ (GetTrainingScore cfg (GetTrainingScore cfg st).2
        = ((GetTrainingScore cfg st).1, (GetTrainingScore cfg st).2))
    ∧ (GetTrainingScore cfg
        (GetTrainingScore cfg (GetTrainingScore cfg st).2).2
        = ((GetTrainingScore cfg st).1, (GetTrainingScore cfg st).2)) := by
  refine ⟨?_, ?_, ?_⟩
  · simp [GetTrainingScore, h]
  · simp [GetTrainingScore, h]
  · simp [GetTrainingScore, h]

/-- **C6.** With `skip_drop = 1` every round's DropSet is empty and the
shrinkage rate is the configured learning rate, whatever the mode. -/
theorem dart_skip_drop_one (cfg : BoostingConfig) (st : DartState)
    (h : cfg.skip_drop = 1) :
    (DroppingTrees cfg st).drop_index = []
    ∧ (DroppingTrees cfg st).shrinkage_rate = cfg.learning_rate := by
  have hsel : selectDrop cfg st.random_for_drop st.iter
      = ([], st.random_for_drop.next) := by
    rw [selectDrop_spec, if_pos]
    rw [h]
    exact Random.val_lt_one _
  constructor
  · show (selectDrop cfg st.random_for_drop st.iter).1 = []
    rw [hsel]
  · show computeShrinkage cfg
      (selectDrop cfg st.random_for_drop st.iter).1.length = cfg.learning_rate
    rw [hsel]
    exact computeShrinkage_zero cfg

/-- **C7.** With `drop_rate = 0` (and any `skip_drop < 1`) the DropSet is
always empty, the shrinkage rate equals the learning rate, and neither the
drop step nor the normalization step touches any tree weight or score
buffer. -/
theorem dart_drop_rate_zero (cfg : BoostingConfig) (st : DartState)
    (h : cfg.drop_rate = 0) (h2 : cfg.skip_drop < 1) :
    (DroppingTrees cfg st).drop_index = []
    ∧ (DroppingTrees cfg st).shrinkage_rate = cfg.learning_rate
    ∧ (DroppingTrees cfg st).models = st.models
    ∧ (DroppingTrees cfg st).train_score = st.train_score
    ∧ (DroppingTrees cfg st).valid_scores = st.valid_scores
    ∧ Normalize cfg (DroppingTrees cfg st) = DroppingTrees cfg st := by
  have hsel : (selectDrop cfg st.random_for_drop st.iter).1 = [] := by
    rw [selectDrop_spec]
    by_cases hs : st.random_for_drop.val < cfg.skip_drop
    · simp [hs]
    · simp only [hs, if_false]
      apply List.filter_eq_nil_iff.mpr
      intro a ha
      simp only [decide_eq_true_eq]
      rw [h]
      exact not_lt.mpr (Random.val_nonneg _)
  have hm : (DroppingTrees cfg st).models = st.models := by
    show (dropTrees cfg.num_class (st.models, st.train_score)
      (selectDrop cfg st.random_for_drop st.iter).1).1 = st.models
    rw [hsel]
    rfl
  have ht : (DroppingTrees cfg st).train_score = st.train_score := by
    show (dropTrees cfg.num_class (st.models, st.train_score)
      (selectDrop cfg st.random_for_drop st.iter).1).2 = st.train_score
    rw [hsel]
    rfl
  have hidx : (DroppingTrees cfg st).drop_index = [] := by
    show (selectDrop cfg st.random_for_drop st.iter).1 = []
    exact hsel
  refine ⟨hidx, ?_, hm, ht, rfl, ?_⟩
  · show computeShrinkage cfg
      (selectDrop cfg st.random_for_drop st.iter).1.length = cfg.learning_rate
    rw [hsel]
    exact computeShrinkage_zero cfg
  · show { DroppingTrees cfg st with
      models := ((DroppingTrees cfg st).drop_index.foldl
        (normIter cfg ((DroppingTrees cfg st).drop_index.length : ℚ)
          (DroppingTrees cfg st).shrinkage_rate)
        { models := (DroppingTrees cfg st).models,
          train := (DroppingTrees cfg st).train_score,
          valids := (DroppingTrees cfg st).valid_scores }).models
      train_score := ((DroppingTrees cfg st).drop_index.foldl
        (normIter cfg ((DroppingTrees cfg st).drop_index.length : ℚ)
          (DroppingTrees cfg st).shrinkage_rate)
        { models := (DroppingTrees cfg st).models,
          train := (DroppingTrees cfg st).train_score,
          valids := (DroppingTrees cfg st).valid_scores }).train
      valid_scores := ((DroppingTrees cfg st).drop_index.foldl
        (normIter cfg ((DroppingTrees cfg st).drop_index.length : ℚ)
          (DroppingTrees cfg st).shrinkage_rate)
        { models := (DroppingTrees cfg st).models,
          train := (DroppingTrees cfg st).train_score,
          valids := (DroppingTrees cfg st).valid_scores }).valids }
      = DroppingTrees cfg st
    rw [hidx]
    rfl

/-- **C8.** The DropSet is rebuilt from scratch every round: the incoming
`drop_index_` has no influence on drop selection; the selected set is a
function of the random-stream state and the iteration count only; and
after a full round the persisted `drop_index_` is exactly what that
round's selection chose from the round-entry stream state and ensemble
size. -/
theorem dart_round_isolation (cfg : BoostingConfig) (st : DartState) :
    (∀ d, DroppingTrees cfg { st with drop_index := d }
        = DroppingTrees cfg st)
    ∧ ((DroppingTrees cfg st).drop_index
        = (selectDrop cfg st.random_for_drop st.iter).1)
    ∧ (∀ bases evalFn is_eval,
        ((TrainOneIter cfg bases evalFn st is_eval).2).drop_index
          = (selectDrop cfg st.random_for_drop st.iter).1)
    ∧ (∀ s1 s2 : DartState,
        s1.random_for_drop = s2.random_for_drop → s1.iter = s2.iter →
        (DroppingTrees cfg s1).drop_index
          = (DroppingTrees cfg s2).drop_index) := by
  refine ⟨fun d => rfl, rfl, ?_, ?_⟩
  · intro bases evalFn is_eval
    cases is_eval
    · rfl
    · rfl
  · intro s1 s2 h1 h2
    show (selectDrop cfg s1.random_for_drop s1.iter).1
      = (selectDrop cfg s2.random_for_drop s2.iter).1
    rw [h1, h2]

/-- **C9.** The random stream is re-seeded at initialization from the
configured seed: whatever stream state the controller held before, two
runs started by `DARTInit` with the same configuration and the same round
inputs produce identical per-round drop sets, shrinkage rates, and tree
weights. -/
theorem dart_two_run_determinism (cfg : BoostingConfig) (st : DartState)
    (r1 r2 : Random) (inputs : List (List (ℕ → ℚ))) :
    runTraces cfg inputs (DARTInit cfg { st with random_for_drop := r1 })
      = runTraces cfg inputs
          (DARTInit cfg { st with random_for_drop := r2 }) := rfl

/-- **C10.** `TrainOneIter` calls the base boosting step with evaluation
suppressed (its result is `false` and its state ignores the evaluation
function), renormalizes, and only then evaluates: the early-stopping
answer is the evaluation function applied to the post-`Normalize` state,
and with evaluation disabled the round returns `false`. -/
theorem dart_eval_after_normalize (cfg : BoostingConfig)
    (bases : List (ℕ → ℚ)) (st : DartState) (f g : DartState → Bool) :
    (TrainOneIter cfg bases f st false
      = (false, Normalize cfg
          (GBDTTrainOneIter cfg bases f
            { st with is_update_score_cur_iter := false } false).2))
    ∧ (TrainOneIter cfg bases f st true
      = (f (Normalize cfg (GBDTTrainOneIter cfg bases f
            { st with is_update_score_cur_iter := false } false).2),
         Normalize cfg (GBDTTrainOneIter cfg bases f
            { st with is_update_score_cur_iter := false } false).2))
    ∧ ((GBDTTrainOneIter cfg bases f
        { st with is_update_score_cur_iter := false } false).1 = false)
    ∧ ((GBDTTrainOneIter cfg bases f
        { st with is_update_score_cur_iter := false } false).2
      = (GBDTTrainOneIter cfg bases g
        { st with is_update_score_cur_iter := false } false).2) :=
  ⟨rfl, rfl, rfl, rfl⟩

/-- **C5.** Drop selection draws one deviate for the skip test; on a skip
the DropSet is empty, otherwise one deviate per completed iteration
decides membership.  Every selected tree `(i, c)` is rescaled by `-1` and
its previous contribution removed from the training buffer only — the
validation buffers are untouched in this step. -/
theorem dart_drop_step_spec (cfg : BoostingConfig) (st : DartState)
    (hlen : st.models.length = st.iter * cfg.num_class) :
    ((st.random_for_drop.val < cfg.skip_drop →
        (DroppingTrees cfg st).drop_index = []
        ∧ (DroppingTrees cfg st).random_for_drop = st.random_for_drop.next)
    ∧ (¬ st.random_for_drop.val < cfg.skip_drop →
        (DroppingTrees cfg st).drop_index
          = (List.range st.iter).filter
              (fun i => decide
                ((Random.next^[i + 1] st.random_for_drop).val
                  < cfg.drop_rate))
        ∧ (DroppingTrees cfg st).random_for_drop
            = Random.next^[st.iter + 1] st.random_for_drop))
    ∧ (DroppingTrees cfg st).valid_scores = st.valid_scores
    ∧ (∀ i ∈ (DroppingTrees cfg st).drop_index, ∀ c, c < cfg.num_class →
        (DroppingTrees cfg st).models.getD (slot cfg.num_class i c) defTree
          = (st.models.getD (slot cfg.num_class i c) defTree).Shrinkage (-1))
    ∧ (∀ r c, c < cfg.num_class →
        (DroppingTrees cfg st).train_score r c
          = st.train_score r c +
            ((DroppingTrees cfg st).drop_index.map (fun i =>
              -((st.models.getD (slot cfg.num_class i c) defTree).weight
                 * (st.models.getD (slot cfg.num_class i c) defTree).base r))).sum) := by
  have hnd := selectDrop_nodup cfg st.random_for_drop st.iter
  have hmem := selectDrop_mem_lt cfg st.random_for_drop st.iter
  have hrange : ∀ i ∈ (selectDrop cfg st.random_for_drop st.iter).1,
      (i + 1) * cfg.num_class ≤ (st.models, st.train_score).1.length := by
    intro i hi
    show (i + 1) * cfg.num_class ≤ st.models.length
    rw [hlen]
    exact Nat.mul_le_mul_right _ (Nat.succ_le_of_lt (hmem i hi))
  obtain ⟨dlen, dset, dother, dtrain⟩ := dropTrees_spec cfg.num_class
    (selectDrop cfg st.random_for_drop st.iter).1 hnd
    (st.models, st.train_score) hrange
  refine ⟨⟨?_, ?_⟩, rfl, ?_, ?_⟩
  · intro hs
    constructor
    · show (selectDrop cfg st.random_for_drop st.iter).1 = []
      rw [selectDrop_spec, if_pos hs]
    · show (selectDrop cfg st.random_for_drop st.iter).2
        = st.random_for_drop.next
      rw [selectDrop_spec, if_pos hs]
  · intro hs
    constructor
    · show (selectDrop cfg st.random_for_drop st.iter).1 = _
      rw [selectDrop_spec, if_neg hs]
    · show (selectDrop cfg st.random_for_drop st.iter).2 = _
      rw [selectDrop_spec, if_neg hs]
  · intro i hi c hc
    exact dset i hi c hc
  · intro r c hc
    exact dtrain r c hc

/-- Per-tree net deltas of the drop phase followed by the normalize phase,
over explicit ensemble, buffers and a duplicate-free drop set.  Each
summand of the training-buffer delta is the same as the corresponding
summand of every validation-buffer delta; in standard mode it is
`-original/(k+1)` times the tree's base prediction. -/
theorem drop_norm_delta (cfg : BoostingConfig) (models : List Tree)
    (train : Buf) (valids : List Buf) (idx : List ℕ) (hnd : idx.Nodup)
    (hrange : ∀ i ∈ idx, (i + 1) * cfg.num_class ≤ models.length)
    (hlr : 0 < cfg.learning_rate) :
    ∀ r c, c < cfg.num_class →
      ((idx.foldl
          (normIter cfg (idx.length : ℚ) (computeShrinkage cfg idx.length))
          ⟨(dropTrees cfg.num_class (models, train) idx).1,
           (dropTrees cfg.num_class (models, train) idx).2, valids⟩).train r c
          - train r c
        = (idx.map (fun i =>
            if cfg.xgboost_dart_mode then
              -((models.getD (slot cfg.num_class i c) defTree).weight
                 * (models.getD (slot cfg.num_class i c) defTree).base r)
                * computeShrinkage cfg idx.length
            else
              -((models.getD (slot cfg.num_class i c) defTree).weight
                 * (models.getD (slot cfg.num_class i c) defTree).base r)
                / ((idx.length : ℚ) + 1))).sum)
      ∧ (∀ j, j < valids.length →
          (idx.foldl
            (normIter cfg (idx.length : ℚ) (computeShrinkage cfg idx.length))
            ⟨(dropTrees cfg.num_class (models, train) idx).1,
             (dropTrees cfg.num_class (models, train) idx).2,
             valids⟩).valids.getD j defBuf r c
            - valids.getD j defBuf r c
          = (idx.map (fun i =>
              if cfg.xgboost_dart_mode then
                -((models.getD (slot cfg.num_class i c) defTree).weight
                   * (models.getD (slot cfg.num_class i c) defTree).base r)
                  * computeShrinkage cfg idx.length
              else
                -((models.getD (slot cfg.num_class i c) defTree).weight
                   * (models.getD (slot cfg.num_class i c) defTree).base r)
                  / ((idx.length : ℚ) + 1))).sum) := by
  intro r c hc
  obtain ⟨dlen, dset, dother, dtrain⟩ :=
    dropTrees_spec cfg.num_class idx hnd (models, train) hrange
  have hrange2 : ∀ i ∈ idx, (i + 1) * cfg.num_class ≤
      (NormAcc.mk (dropTrees cfg.num_class (models, train) idx).1
        (dropTrees cfg.num_class (models, train) idx).2
        valids).models.length := by
    intro i hi
    show (i + 1) * cfg.num_class
      ≤ (dropTrees cfg.num_class (models, train) idx).1.length
    rw [dlen]
    exact hrange i hi
  obtain ⟨nlen, nvlen, nset, nother, ntrain, nvalid⟩ :=
    normFold_spec cfg (idx.length : ℚ) (computeShrinkage cfg idx.length)
      idx hnd
      (NormAcc.mk (dropTrees cfg.num_class (models, train) idx).1
        (dropTrees cfg.num_class (models, train) idx).2 valids) hrange2
  have haccm : (NormAcc.mk (dropTrees cfg.num_class (models, train) idx).1
      (dropTrees cfg.num_class (models, train) idx).2 valids).models
      = (dropTrees cfg.num_class (models, train) idx).1 := rfl
  have hacct : (NormAcc.mk (dropTrees cfg.num_class (models, train) idx).1
      (dropTrees cfg.num_class (models, train) idx).2 valids).train
      = (dropTrees cfg.num_class (models, train) idx).2 := rfl
  have haccv : (NormAcc.mk (dropTrees cfg.num_class (models, train) idx).1
      (dropTrees cfg.num_class (models, train) idx).2 valids).valids
      = valids := rfl
  have hxg : cfg.xgboost_dart_mode = true → idx ≠ [] →
      computeShrinkage cfg idx.length
        = cfg.learning_rate / (cfg.learning_rate + (idx.length : ℚ)) := by
    intro hmode hne
    unfold computeShrinkage
    rw [if_neg (by rw [hmode]; simp), if_neg (by
      intro h0
      exact hne (List.length_eq_zero.mp h0))]
  constructor
  · rw [ntrain r c hc, haccm, hacct, dtrain r c hc]
    have hsum : (idx.map (fun i =>
          -((models.getD (slot cfg.num_class i c) defTree).weight
             * (models.getD (slot cfg.num_class i c) defTree).base r))).sum
        + (idx.map (fun i =>
          (((dropTrees cfg.num_class (models, train) idx).1.getD
              (slot cfg.num_class i c) defTree).weight
            * normF1 cfg (idx.length : ℚ) (computeShrinkage cfg idx.length)
            * normF2 cfg (idx.length : ℚ))
            * ((dropTrees cfg.num_class (models, train) idx).1.getD
              (slot cfg.num_class i c) defTree).base r)).sum
        = (idx.map (fun i =>
            if cfg.xgboost_dart_mode then
              -((models.getD (slot cfg.num_class i c) defTree).weight
                 * (models.getD (slot cfg.num_class i c) defTree).base r)
                * computeShrinkage cfg idx.length
            else
              -((models.getD (slot cfg.num_class i c) defTree).weight
                 * (models.getD (slot cfg.num_class i c) defTree).base r)
                / ((idx.length : ℚ) + 1))).sum := by
      rw [← sum_map_add_eq]
      apply congrArg List.sum
      apply List.map_congr_left
      intro i hi
      rw [dset i hi c hc]
      have hne : idx ≠ [] := List.ne_nil_of_mem hi
      cases hmode : cfg.xgboost_dart_mode
      · simp only [normF1, normF2, hmode, if_false, Bool.false_eq_true,
          Tree.Shrinkage]
        have hk1 : ((idx.length : ℚ) + 1) ≠ 0 := by positivity
        field_simp
        ring
      · simp only [normF1, normF2, hmode, if_true, Tree.Shrinkage]
        rw [hxg hmode hne]
        have hlk : cfg.learning_rate + (idx.length : ℚ) ≠ 0 :=
          ne_of_gt (add_pos_of_pos_of_nonneg hlr (Nat.cast_nonneg _))
        have hl0 : cfg.learning_rate ≠ 0 := ne_of_gt hlr
        field_simp
        ring
    linarith [hsum]
  · intro j hj
    have hj2 : j < (NormAcc.mk (dropTrees cfg.num_class (models, train) idx).1
        (dropTrees cfg.num_class (models, train) idx).2
        valids).valids.length := hj
    rw [nvalid j hj2 r c hc, haccm, haccv]
    have hsum : (idx.map (fun i =>
          (((dropTrees cfg.num_class (models, train) idx).1.getD
              (slot cfg.num_class i c) defTree).weight
            * normF1 cfg (idx.length : ℚ) (computeShrinkage cfg idx.length))
            * ((dropTrees cfg.num_class (models, train) idx).1.getD
              (slot cfg.num_class i c) defTree).base r)).sum
        = (idx.map (fun i =>
            if cfg.xgboost_dart_mode then
              -((models.getD (slot cfg.num_class i c) defTree).weight
                 * (models.getD (slot cfg.num_class i c) defTree).base r)
                * computeShrinkage cfg idx.length
            else
              -((models.getD (slot cfg.num_class i c) defTree).weight
                 * (models.getD (slot cfg.num_class i c) defTree).base r)
                / ((idx.length : ℚ) + 1))).sum := by
      apply congrArg List.sum
      apply List.map_congr_left
      intro i hi
      rw [dset i hi c hc]
      cases hmode : cfg.xgboost_dart_mode
      · simp only [normF1, hmode, if_false, Bool.false_eq_true,
          Tree.Shrinkage]
        have hk1 : ((idx.length : ℚ) + 1) ≠ 0 := by positivity
        field_simp
      · simp only [normF1, hmode, if_true, Tree.Shrinkage]
        ring
    linarith [hsum]

/-- **C1.** For every dropped tree of a round, the net delta applied to
the training buffer across the drop step plus the normalization step (the
`i`-th summand below) is the identical expression as the net delta applied
to each validation buffer by the normalization step alone; in standard
mode each such per-tree delta is `-original/(k+1)` times the tree's base
prediction, with `k = |DropSet|`.  This holds in both modes. -/
theorem dart_net_delta (cfg : BoostingConfig) (st : DartState)
    (hlen : st.models.length = st.iter * cfg.num_class)
    (hlr : 0 < cfg.learning_rate) :
    ∀ r c, c < cfg.num_class →
      ((Normalize cfg (DroppingTrees cfg st)).train_score r c
          - st.train_score r c
        = (((DroppingTrees cfg st).drop_index).map (fun i =>
            if cfg.xgboost_dart_mode then
              -((st.models.getD (slot cfg.num_class i c) defTree).weight
                 * (st.models.getD (slot cfg.num_class i c) defTree).base r)
                * (DroppingTrees cfg st).shrinkage_rate
            else
              -((st.models.getD (slot cfg.num_class i c) defTree).weight
                 * (st.models.getD (slot cfg.num_class i c) defTree).base r)
                / (((DroppingTrees cfg st).drop_index.length : ℚ) + 1))).sum)
      ∧ (∀ j, j < st.valid_scores.length →
          (Normalize cfg (DroppingTrees cfg st)).valid_scores.getD
              j defBuf r c
            - st.valid_scores.getD j defBuf r c
          = (((DroppingTrees cfg st).drop_index).map (fun i =>
              if cfg.xgboost_dart_mode then
                -((st.models.getD (slot cfg.num_class i c) defTree).weight
                   * (st.models.getD (slot cfg.num_class i c) defTree).base r)
                  * (DroppingTrees cfg st).shrinkage_rate
              else
                -((st.models.getD (slot cfg.num_class i c) defTree).weight
                   * (st.models.getD (slot cfg.num_class i c) defTree).base r)
                  / (((DroppingTrees cfg st).drop_index.length : ℚ) + 1))).sum) := by
  have hnd := selectDrop_nodup cfg st.random_for_drop st.iter
  have hmem := selectDrop_mem_lt cfg st.random_for_drop st.iter
  have hrange : ∀ i ∈ (selectDrop cfg st.random_for_drop st.iter).1,
      (i + 1) * cfg.num_class ≤ st.models.length := by
    intro i hi
    rw [hlen]
    exact Nat.mul_le_mul_right _ (Nat.succ_le_of_lt (hmem i hi))
  exact drop_norm_delta cfg st.models st.train_score st.valid_scores
    (selectDrop cfg st.random_for_drop st.iter).1 hnd hrange hlr

/-- Final persisted weight of each dropped tree after the cumulative
in-place rescale chain (drop by `-1`, then `normF1`, then `normF2`), with
the newly grown trees already appended between the two phases. -/
theorem norm_weight_chain (cfg : BoostingConfig) (models : List Tree)
    (train : Buf) (valids : List Buf) (idx : List ℕ) (newTrees : List Tree)
    (trainG : Buf) (hnd : idx.Nodup)
    (hrange : ∀ i ∈ idx, (i + 1) * cfg.num_class ≤ models.length) :
    ∀ i ∈ idx, ∀ c, c < cfg.num_class →
      ((idx.foldl
          (normIter cfg (idx.length : ℚ) (computeShrinkage cfg idx.length))
          ⟨(dropTrees cfg.num_class (models, train) idx).1 ++ newTrees,
            trainG, valids⟩).models.getD
          (slot cfg.num_class i c) defTree).weight
        = (if cfg.xgboost_dart_mode then
            (models.getD (slot cfg.num_class i c) defTree).weight
              * computeShrinkage cfg idx.length * (idx.length : ℚ)
              / cfg.learning_rate
           else
            (models.getD (slot cfg.num_class i c) defTree).weight
              * ((idx.length : ℚ) / ((idx.length : ℚ) + 1))) := by
  intro i hi c hc
  obtain ⟨dlen, dset, dother, dtrain⟩ :=
    dropTrees_spec cfg.num_class idx hnd (models, train) hrange
  have hdlen : (dropTrees cfg.num_class (models, train) idx).1.length
      = models.length := dlen
  have hrangeG : ∀ i' ∈ idx, (i' + 1) * cfg.num_class ≤
      (NormAcc.mk ((dropTrees cfg.num_class (models, train) idx).1
        ++ newTrees) trainG valids).models.length := by
    intro i' hi'
    show (i' + 1) * cfg.num_class
      ≤ ((dropTrees cfg.num_class (models, train) idx).1 ++ newTrees).length
    rw [List.length_append, hdlen]
    exact le_trans (hrange i' hi') (Nat.le_add_right _ _)
  obtain ⟨nlen, nvlen, nset, nother, ntrain, nvalid⟩ :=
    normFold_spec cfg (idx.length : ℚ) (computeShrinkage cfg idx.length)
      idx hnd
      (NormAcc.mk ((dropTrees cfg.num_class (models, train) idx).1
        ++ newTrees) trainG valids) hrangeG
  rw [nset i hi c hc]
  have haccm : (NormAcc.mk ((dropTrees cfg.num_class (models, train) idx).1
      ++ newTrees) trainG valids).models
      = (dropTrees cfg.num_class (models, train) idx).1 ++ newTrees := rfl
  rw [haccm]
  have hgets : ((dropTrees cfg.num_class (models, train) idx).1
        ++ newTrees).getD (slot cfg.num_class i c) defTree
      = (dropTrees cfg.num_class (models, train) idx).1.getD
          (slot cfg.num_class i c) defTree :=
    getD_append_lt _ _ _ _ (by rw [hdlen]; exact slot_lt hc (hrange i hi))
  rw [hgets, dset i hi c hc]
  cases hmode : cfg.xgboost_dart_mode
  · simp only [normF1, normF2, hmode, Tree.Shrinkage, Bool.false_eq_true,
      if_false]
    have hk1 : ((idx.length : ℚ) + 1) ≠ 0 := by positivity
    field_simp
  · simp only [normF1, normF2, hmode, Tree.Shrinkage, if_true]
    ring

/-- **C2.** After a full round, every dropped tree's persisted weight
equals `original · k/(k+1)` in standard mode and
`original · ShrinkageRate · k / learning_rate` in alternate mode, the
cumulative result of the in-place rescale chain. -/
theorem dart_final_weight (cfg : BoostingConfig) (bases : List (ℕ → ℚ))
    (evalFn : DartState → Bool) (st : DartState) (is_eval : Bool)
    (hlen : st.models.length = st.iter * cfg.num_class) :
    ∀ i ∈ ((TrainOneIter cfg bases evalFn st is_eval).2).drop_index,
      ∀ c, c < cfg.num_class →
      (((TrainOneIter cfg bases evalFn st is_eval).2).models.getD
          (slot cfg.num_class i c) defTree).weight
        = (if cfg.xgboost_dart_mode then
            (st.models.getD (slot cfg.num_class i c) defTree).weight
              * ((TrainOneIter cfg bases evalFn st is_eval).2).shrinkage_rate
              * ((((TrainOneIter cfg bases evalFn st is_eval).2).drop_index.length : ℚ))
              / cfg.learning_rate
           else
            (st.models.getD (slot cfg.num_class i c) defTree).weight
              * (((((TrainOneIter cfg bases evalFn st is_eval).2).drop_index.length : ℚ))
                / (((((TrainOneIter cfg bases evalFn st is_eval).2).drop_index.length : ℚ)) + 1))) := by
  have hnd := selectDrop_nodup cfg st.random_for_drop st.iter
  have hmem := selectDrop_mem_lt cfg st.random_for_drop st.iter
  have hrange : ∀ i ∈ (selectDrop cfg st.random_for_drop st.iter).1,
      (i + 1) * cfg.num_class ≤ st.models.length := by
    intro i hi
    rw [hlen]
    exact Nat.mul_le_mul_right _ (Nat.succ_le_of_lt (hmem i hi))
  cases is_eval
  · exact norm_weight_chain cfg st.models st.train_score st.valid_scores
      (selectDrop cfg st.random_for_drop st.iter).1 _ _ hnd hrange
  · exact norm_weight_chain cfg st.models st.train_score st.valid_scores
      (selectDrop cfg st.random_for_drop st.iter).1 _ _ hnd hrange

/-! ### Concrete instances for witnesses -/

/-- One-class configuration, standard mode, always-drop. -/
def cfgC1 : BoostingConfig :=
  { drop_rate := 1, skip_drop := 0, learning_rate := 1/10,
    xgboost_dart_mode := false, drop_seed := 0, num_class := 1 }

/-- One completed iteration, unit tree, one validation buffer. -/
def stC1 : DartState :=
  { models := [{ weight := 1, base := fun _ => 1 }], iter := 1,
    num_data := 1, train_score := defBuf, valid_scores := [defBuf],
    drop_index := [], random_for_drop := { s := 0 }, shrinkage_rate := 0,
    is_update_score_cur_iter := false }

/-- Alternate-mode configuration, always-drop. -/
def cfgC2 : BoostingConfig :=
  { drop_rate := 1, skip_drop := 0, learning_rate := 1/10,
    xgboost_dart_mode := true, drop_seed := 0, num_class := 1 }

/-- One completed iteration for the full-round weight witness. -/
def stC2 : DartState :=
  { models := [{ weight := 1, base := fun _ => 1 }], iter := 1,
    num_data := 1, train_score := defBuf, valid_scores := [defBuf],
    drop_index := [], random_for_drop := { s := 0 }, shrinkage_rate := 0,
    is_update_score_cur_iter := false }

/-- Configuration for the laziness witness. -/
def cfgC4 : BoostingConfig :=
  { drop_rate := 1, skip_drop := 0, learning_rate := 1/10,
    xgboost_dart_mode := false, drop_seed := 0, num_class := 1 }

/-- Fresh-gate state for the laziness witness. -/
def stC4 : DartState :=
  { models := [{ weight := 1, base := fun _ => 1 }], iter := 1,
    num_data := 1, train_score := defBuf, valid_scores := [],
    drop_index := [], random_for_drop := { s := 0 }, shrinkage_rate := 0,
    is_update_score_cur_iter := false }

/-- Configuration for the drop-step witness. -/
def cfgC5 : BoostingConfig :=
  { drop_rate := 1, skip_drop := 0, learning_rate := 1/10,
    xgboost_dart_mode := false, drop_seed := 0, num_class := 1 }

/-- State for the drop-step witness. -/
def stC5 : DartState :=
  { models := [{ weight := 1, base := fun _ => 1 }], iter := 1,
    num_data := 1, train_score := defBuf, valid_scores := [defBuf],
    drop_index := [], random_for_drop := { s := 0 }, shrinkage_rate := 0,
    is_update_score_cur_iter := false }

/-- Configuration with `skip_drop = 1`. -/
def cfgC6 : BoostingConfig :=
  { drop_rate := 1, skip_drop := 1, learning_rate := 1/10,
    xgboost_dart_mode := false, drop_seed := 0, num_class := 1 }

/-- State for the skip-drop witness. -/
def stC6 : DartState :=
  { models := [{ weight := 1, base := fun _ => 1 }], iter := 1,
    num_data := 1, train_score := defBuf, valid_scores := [],
    drop_index := [], random_for_drop := { s := 0 }, shrinkage_rate := 0,
    is_update_score_cur_iter := false }

/-- Configuration with `drop_rate = 0`. -/
def cfgC7 : BoostingConfig :=
  { drop_rate := 0, skip_drop := 0, learning_rate := 1/10,
    xgboost_dart_mode := false, drop_seed := 0, num_class := 1 }

/-- State for the zero-drop-rate witness. -/
def stC7 : DartState :=
  { models := [{ weight := 1, base := fun _ => 1 }], iter := 1,
    num_data := 1, train_score := defBuf, valid_scores := [],
    drop_index := [], random_for_drop := { s := 0 }, shrinkage_rate := 0,
    is_update_score_cur_iter := false }

/-- Configuration for the round-isolation witness. -/
def cfgC8 : BoostingConfig :=
  { drop_rate := 1, skip_drop := 0, learning_rate := 1/10,
    xgboost_dart_mode := false, drop_seed := 0, num_class := 1 }

/-- Two states agreeing on the random stream and the iteration count but
differing elsewhere. -/
def stC8a : DartState :=
  { models := [{ weight := 1, base := fun _ => 1 }], iter := 1,
    num_data := 1, train_score := defBuf, valid_scores := [],
    drop_index := [], random_for_drop := { s := 0 }, shrinkage_rate := 0,
    is_update_score_cur_iter := false }

/-- Companion state for the round-isolation witness. -/
def stC8b : DartState :=
  { models := [{ weight := 5, base := fun _ => 3 }], iter := 1,
    num_data := 2, train_score := defBuf, valid_scores := [defBuf],
    drop_index := [0, 7], random_for_drop := { s := 0 },
    shrinkage_rate := 9, is_update_score_cur_iter := true }

/-! ### Witnesses -/

/-- Witness for **C1** at a concrete config, state, row and class. -/
theorem dart_net_delta_witness :
    stC1.models.length = stC1.iter * cfgC1.num_class
    ∧ (0 : ℚ) < cfgC1.learning_rate
    ∧ ((Normalize cfgC1 (DroppingTrees cfgC1 stC1)).train_score 0 0
        - stC1.train_score 0 0
      = (((DroppingTrees cfgC1 stC1).drop_index).map (fun i =>
          if cfgC1.xgboost_dart_mode then
            -((stC1.models.getD (slot cfgC1.num_class i 0) defTree).weight
               * (stC1.models.getD (slot cfgC1.num_class i 0) defTree).base 0)
              * (DroppingTrees cfgC1 stC1).shrinkage_rate
          else
            -((stC1.models.getD (slot cfgC1.num_class i 0) defTree).weight
               * (stC1.models.getD (slot cfgC1.num_class i 0) defTree).base 0)
              / (((DroppingTrees cfgC1 stC1).drop_index.length : ℚ) + 1))).sum) :=
  ⟨rfl, by norm_num [cfgC1],
    (dart_net_delta cfgC1 stC1 rfl (by norm_num [cfgC1]) 0 0 (by decide)).1⟩

/-- Witness for **C2** at a concrete config, state, dropped tree and
class. -/
theorem dart_final_weight_witness :
    stC2.models.length = stC2.iter * cfgC2.num_class
    ∧ 0 ∈ ((TrainOneIter cfgC2 [fun _ => 1] (fun _ => false) stC2 false).2).drop_index
    ∧ ((((TrainOneIter cfgC2 [fun _ => 1] (fun _ => false) stC2 false).2).models.getD
          (slot cfgC2.num_class 0 0) defTree).weight
        = (if cfgC2.xgboost_dart_mode then
            (stC2.models.getD (slot cfgC2.num_class 0 0) defTree).weight
              * ((TrainOneIter cfgC2 [fun _ => 1] (fun _ => false) stC2 false).2).shrinkage_rate
              * ((((TrainOneIter cfgC2 [fun _ => 1] (fun _ => false) stC2 false).2).drop_index.length : ℚ))
              / cfgC2.learning_rate
           else
            (stC2.models.getD (slot cfgC2.num_class 0 0) defTree).weight
              * (((((TrainOneIter cfgC2 [fun _ => 1] (fun _ => false) stC2 false).2).drop_index.length : ℚ))
                / (((((TrainOneIter cfgC2 [fun _ => 1] (fun _ => false) stC2 false).2).drop_index.length : ℚ)) + 1)))) :=
  ⟨rfl, by
    have h0 : ((TrainOneIter cfgC2 [fun _ => (1 : ℚ)] (fun _ => false)
          stC2 false).2).drop_index
        = (selectDrop cfgC2 stC2.random_for_drop stC2.iter).1 := rfl
    rw [h0, selectDrop_spec]
    norm_num [cfgC2, stC2, Random.val, Random.next],
    dart_final_weight cfgC2 [fun _ => 1] (fun _ => false) stC2 false rfl
      0 (by
        have h0 : ((TrainOneIter cfgC2 [fun _ => (1 : ℚ)] (fun _ => false)
              stC2 false).2).drop_index
            = (selectDrop cfgC2 stC2.random_for_drop stC2.iter).1 := rfl
        rw [h0, selectDrop_spec]
        norm_num [cfgC2, stC2, Random.val, Random.next]) 0 (by decide)⟩

/-- Witness for **C4** at a concrete config and fresh-gate state. -/
theorem dart_lazy_at_most_once_witness :
    stC4.is_update_score_cur_iter = false
    ∧ (((GetTrainingScore cfgC4 stC4).2
        = { DroppingTrees cfgC4 stC4 with is_update_score_cur_iter := true })
      ∧ (GetTrainingScore cfgC4 (GetTrainingScore cfgC4 stC4).2
          = ((GetTrainingScore cfgC4 stC4).1, (GetTrainingScore cfgC4 stC4).2))
      ∧ (GetTrainingScore cfgC4
          (GetTrainingScore cfgC4 (GetTrainingScore cfgC4 stC4).2).2
          = ((GetTrainingScore cfgC4 stC4).1, (GetTrainingScore cfgC4 stC4).2))) :=
  ⟨rfl, dart_lazy_at_most_once cfgC4 stC4 rfl⟩

/-- Witness for **C5** at a concrete config, state, row and class. -/
theorem dart_drop_step_spec_witness :
    stC5.models.length = stC5.iter * cfgC5.num_class
    ∧ ((DroppingTrees cfgC5 stC5).train_score 0 0
        = stC5.train_score 0 0 +
          (((DroppingTrees cfgC5 stC5).drop_index).map (fun i =>
            -((stC5.models.getD (slot cfgC5.num_class i 0) defTree).weight
               * (stC5.models.getD (slot cfgC5.num_class i 0) defTree).base 0))).sum) :=
  ⟨rfl, (dart_drop_step_spec cfgC5 stC5 rfl).2.2.2 0 0 (by decide)⟩

/-- Witness for **C6** at a concrete config and state. -/
theorem dart_skip_drop_one_witness :
    cfgC6.skip_drop = 1
    ∧ ((DroppingTrees cfgC6 stC6).drop_index = []
      ∧ (DroppingTrees cfgC6 stC6).shrinkage_rate = cfgC6.learning_rate) :=
  ⟨rfl, dart_skip_drop_one cfgC6 stC6 rfl⟩

/-- Witness for **C7** at a concrete config and state. -/
theorem dart_drop_rate_zero_witness :
    cfgC7.drop_rate = 0
    ∧ cfgC7.skip_drop < 1
    ∧ ((DroppingTrees cfgC7 stC7).drop_index = []
      ∧ (DroppingTrees cfgC7 stC7).shrinkage_rate = cfgC7.learning_rate
      ∧ (DroppingTrees cfgC7 stC7).models = stC7.models
      ∧ (DroppingTrees cfgC7 stC7).train_score = stC7.train_score
      ∧ (DroppingTrees cfgC7 stC7).valid_scores = stC7.valid_scores
      ∧ Normalize cfgC7 (DroppingTrees cfgC7 stC7)
          = DroppingTrees cfgC7 stC7) :=
  ⟨rfl, by norm_num [cfgC7],
    dart_drop_rate_zero cfgC7 stC7 rfl (by norm_num [cfgC7])⟩

/-- Witness for **C8**: two concrete states sharing only the stream state
and iteration count select the same DropSet. -/
theorem dart_round_isolation_witness :
    (DroppingTrees cfgC8 stC8a).drop_index
      = (DroppingTrees cfgC8 stC8b).drop_index :=
  (dart_round_isolation cfgC8 stC8a).2.2.2 stC8a stC8b rfl rfl

end LightGBM
